import Mathlib

/-!
Shallow embedding of the summarization pipeline of `src/model.py`
(functions `code_to_text`, `fetch_summary`, `get_cache`, `get_http_client`,
`null_summary`), together with proofs of the specification claims about it.

Modelling conventions:
  * Python strings are Lean `String`s; the file mapping (a Python `dict`)
    is a `List (String × String)` of `(path, contents)` pairs in insertion
    order (`dict` iteration order).
  * The network is a deterministic oracle `transport : String → HttpOutcome`
    giving, for each prompt POSTed, either a raised transport exception
    (timeout, connection error) or a response with a status code and an
    optional parsed JSON body (`none` models a body `response.json()` fails
    on).  The HTTP client object created by `get_http_client` is modelled by
    a numeric client id recorded on every issued call, so that sharing of
    the one client across the batch is visible in the call log.
  * The TTLCache of `get_cache` is modelled as an association list in the
    regime the claims quantify over (entries unexpired and unevicted);
    expiry and eviction are behaviour of the external `cachetools` library,
    not of this repository.
  * `format_sentence` is imported by `model.py` from a module that only
    normalizes the returned text; it is kept abstract as a parameter `fmt`.
  * Python `str.format` on a template with one slot is kept abstract as a
    parameter `pf : String → String` rendering contents to the prompt.
  * The cooperative `asyncio` interleaving is serialized: tasks are run to
    completion in creation order.  Every property proved below is
    insensitive to the interleaving (it concerns per-file results, the call
    log, and cache frame conditions that hold on every schedule).
-/

/-- Python `str.split()` splits on runs of whitespace characters. -/
def pyIsSpace (c : Char) : Bool :=
  c == ' ' || c == '\t' || c == '\n' || c == '\r' || c == '\x0b' || c == '\x0c'

/-- Worker for Python `str.split()`: `acc` is the current word, reversed. -/
def pySplitAux : List Char → List Char → List (List Char)
  | [], acc => if acc.isEmpty then [] else [acc.reverse]
  | c :: cs, acc =>
    if pyIsSpace c then
      if acc.isEmpty then pySplitAux cs [] else acc.reverse :: pySplitAux cs []
    else
      pySplitAux cs (c :: acc)

/-- `len(s.split())` of `model.py` line 69: the whitespace-delimited token
count used as the token estimate. -/
def countWords (s : String) : Nat :=
  (pySplitAux s.data []).length

/-- Boolean list prefix test over characters. -/
def isPrefixB : List Char → List Char → Bool
  | [], _ => true
  | _ :: _, [] => false
  | a :: as, b :: bs => a == b && isPrefixB as bs

/-- Substring search: does `needle` occur contiguously in the haystack? -/
def containsSub (needle : List Char) : List Char → Bool
  | [] => isPrefixB needle []
  | c :: cs => isPrefixB needle (c :: cs) || containsSub needle cs

/-- Python `needle in hay` on strings: substring containment. -/
def pyIn (needle hay : String) : Bool :=
  containsSub needle.data hay.data

/-- The ignore test of `model.py` line 64:
`any(fn in str(path) for fn in ignore_files)`. -/
def ignoredB (ignore_files : List String) (path : String) : Bool :=
  ignore_files.any (fun fn => pyIn fn path)

/-- `MAX_TOKENS` of `model.py` line 16. -/
def MAX_TOKENS : Nat := 4096

/-- The fixed fallback string of `model.py` lines 139 and 153. -/
def errMsg : String := "Error generating file summary."

/-- The `TTLCache` of `get_cache`, in the unexpired, unevicted regime:
an association list from rendered prompt to summary. -/
abbrev Cache := List (String × String)

/-- Lookup: `prompt in cache` / `cache[prompt]`. -/
def cacheGet : Cache → String → Option String
  | [], _ => none
  | (k, v) :: rest, key => if k == key then some v else cacheGet rest key

/-- Store: `cache[prompt] = summary` (the write path only runs on a miss,
so this is the creation of one new entry). -/
def cacheSet (c : Cache) (k v : String) : Cache :=
  (k, v) :: c

/-- The parsed JSON body of a completion response: `choices` is `none` when
the key is absent, otherwise the list of `text` fields of the choices. -/
structure ApiBody where
  choices : Option (List String)
deriving Repr, DecidableEq

/-- Outcome of `http_client.post` for one prompt: a raised exception
(timeout, connection error), or a response carrying a status code and an
optional parsed body (`none` when `response.json()` raises). -/
inductive HttpOutcome where
  | exn : HttpOutcome
  | resp : Nat → Option ApiBody → HttpOutcome
deriving Repr, DecidableEq

/-- The exceptions that can escape the `try` block of `fetch_summary`. -/
inductive FetchErr where
  | httpExn : FetchErr
  | jsonError : FetchErr
  | openAIError : String → FetchErr
deriving Repr, DecidableEq

/-- The body of the `try` block of `fetch_summary` (`model.py` lines
121-148), after the POST outcome `transport prompt` is known.  A normal
return is `.ok (result, new cache)`; a raised exception is `.error`.
`raise_for_status()` is a no-op on the surviving branch (status = 200). -/
def fetchTryBody (fmt : String → String) (file prompt : String)
    (transport : String → HttpOutcome) (cache : Cache) :
    Except FetchErr ((String × String) × Cache) :=
  match transport prompt with
  | .exn => .error .httpExn
  | .resp status body =>
    if status ≠ 200 then
      .ok ((file, errMsg), cache)
    else
      match body with
      | none => .error .jsonError
      | some data =>
        match data.choices with
        | none => .error (.openAIError "OpenAI response missing choices field.")
        | some [] => .error (.openAIError "OpenAI response missing choices field.")
        | some (choice :: _) =>
          let summary := fmt choice
          .ok ((file, summary), cacheSet cache prompt summary)

/-- What one `fetch_summary` task produces: its `(file, text)` result, the
cache afterwards, and the network calls it issued, each tagged
`(client id, file, prompt)`. -/
structure FetchOut where
  result : String × String
  cache : Cache
  calls : List (Nat × String × String)
deriving Repr, DecidableEq

/-- `fetch_summary` of `model.py` lines 90-153: cache hit returns at once
with no call; otherwise one POST is issued and every exception from the
`try` block is absorbed into the fallback result. -/
def fetch_summary (fmt : String → String) (client : Nat) (file prompt : String)
    (transport : String → HttpOutcome) (cache : Cache) : FetchOut :=
  match cacheGet cache prompt with
  | some v => ⟨(file, v), cache, []⟩
  | none =>
    match fetchTryBody fmt file prompt transport cache with
    | .ok (r, c) => ⟨r, c, [(client, file, prompt)]⟩
    | .error _ => ⟨(file, errMsg), cache, [(client, file, prompt)]⟩

/-- A run of the task list of `code_to_text`: results in task order, the
final cache, and the concatenated call log. -/
structure GoOut where
  results : List (String × String)
  cache : Cache
  calls : List (Nat × String × String)
deriving Repr, DecidableEq

/-- The loop of `code_to_text` (`model.py` lines 63-85) together with the
`asyncio.gather` of line 85, serialized: for each file, skip it when
ignored, schedule the placeholder `null_summary` result when the token
estimate exceeds `MAX_TOKENS`, otherwise run `fetch_summary` against the
shared client and cache. -/
def pipeGo (fmt : String → String) (transport : String → HttpOutcome)
    (ignore_files : List String) (pf : String → String) (client : Nat) :
    Cache → List (String × String) → GoOut
  | cache, [] => ⟨[], cache, []⟩
  | cache, (path, contents) :: rest =>
    if ignoredB ignore_files path then
      pipeGo fmt transport ignore_files pf client cache rest
    else
      let prompt_code := pf contents
      let prompt_len := countWords prompt_code
      if prompt_len > MAX_TOKENS then
        let out := pipeGo fmt transport ignore_files pf client cache rest
        ⟨(path, "Prompt exceeds max token limit: " ++ toString prompt_len) :: out.results,
          out.cache, out.calls⟩
      else
        let f := fetch_summary fmt client path prompt_code transport cache
        let out := pipeGo fmt transport ignore_files pf client f.cache rest
        ⟨f.result :: out.results, out.cache, f.calls ++ out.calls⟩

/-- What one `code_to_text` invocation produces: the gathered results, the
final cache, the network call log, and how many HTTP clients the invocation
created and closed. -/
structure PipeOut where
  results : List (String × String)
  cache : Cache
  calls : List (Nat × String × String)
  clientsCreated : Nat
  clientsClosed : Nat
deriving Repr, DecidableEq

/-- `code_to_text` of `model.py` lines 40-87.  One client is created by
`get_http_client()` (line 58) and handed to every scheduled fetch; one
fresh empty cache is created by `get_cache()` (line 59); the function
returns the gathered results and never closes the client (no
`aclose`/`async with` appears in the source). -/
def code_to_text (fmt : String → String) (transport : String → HttpOutcome)
    (ignore_files : List String) (files : List (String × String))
    (pf : String → String) : PipeOut :=
  let client : Nat := 0
  let cache : Cache := []
  let out := pipeGo fmt transport ignore_files pf client cache files
  ⟨out.results, out.cache, out.calls, 1, 0⟩

/-- The failure conditions of one POST outcome: a raised transport
exception, a non-200 status, an unparseable body, or a parsed body without
a non-empty `choices` list.  Exactly the outcomes for which `fetch_summary`
falls back to `errMsg` on a cache miss. -/
def fetchFailureB : HttpOutcome → Bool
  | .exn => true
  | .resp status body =>
    if status ≠ 200 then true
    else
      match body with
      | none => true
      | some data =>
        match data.choices with
        | none => true
        | some [] => true
        | some (_ :: _) => false

/-- The full-success condition of one POST outcome: status 200 and a parsed
body with a non-empty `choices` list. -/
def fetchSuccessB (o : HttpOutcome) : Bool :=
  !fetchFailureB o

/-- Concrete transport for witnesses: every prompt gets a 200 response whose
first choice text is "ok". -/
def trOK : String → HttpOutcome :=
  fun _ => .resp 200 (some ⟨some ["ok"]⟩)

/-- Concrete transport for witnesses: every prompt gets a 500 response with
an unparseable body. -/
def tr500 : String → HttpOutcome :=
  fun _ => .resp 500 none

/-- Concrete transport for witnesses: every prompt gets a 204 response whose
body would parse to a non-empty `choices` list (the body must be ignored). -/
def tr204 : String → HttpOutcome :=
  fun _ => .resp 204 (some ⟨some ["should not be read"]⟩)

/-- Concrete transport for witnesses: every prompt gets a 200 response whose
parsed body has an empty `choices` list. -/
def trEmptyChoices : String → HttpOutcome :=
  fun _ => .resp 200 (some ⟨some []⟩)

/-- The characters of `n` whitespace-separated one-letter words. -/
def wordsChars : Nat → List Char
  | 0 => []
  | n + 1 => 'a' :: ' ' :: wordsChars n

/-- A string whose Python `split()` has exactly `n` tokens (witness input
for the token-budget claims). -/
def wordsN (n : Nat) : String :=
  ⟨wordsChars n⟩

/-! ## Helper lemmas -/

theorem fetchTryBody_ok_fst (fmt : String → String) (file prompt : String)
    (transport : String → HttpOutcome) (cache : Cache)
    (r : String × String) (c : Cache)
    (h : fetchTryBody fmt file prompt transport cache = .ok (r, c)) :
    r.1 = file := by
  unfold fetchTryBody at h
  cases htr : transport prompt with
  | exn => rw [htr] at h; cases h
  | resp status body =>
    rw [htr] at h
    by_cases hs : status ≠ 200
    · simp [hs] at h
      exact congrArg Prod.fst h.1.symm
    · simp [hs] at h
      cases body with
      | none => cases h
      | some data =>
        cases hc : data.choices with
        | none => simp [hc] at h
        | some l =>
          cases l with
          | nil => simp [hc] at h
          | cons choice rest =>
            simp [hc] at h
            exact congrArg Prod.fst h.1.symm

theorem fetch_summary_result_fst (fmt : String → String) (client : Nat)
    (file prompt : String) (transport : String → HttpOutcome) (cache : Cache) :
    (fetch_summary fmt client file prompt transport cache).result.1 = file := by
  unfold fetch_summary
  cases hg : cacheGet cache prompt with
  | some v => rfl
  | none =>
    cases ht : fetchTryBody fmt file prompt transport cache with
    | ok rc =>
      obtain ⟨r, c⟩ := rc
      simpa using fetchTryBody_ok_fst fmt file prompt transport cache r c ht
    | error e => rfl

theorem fetch_summary_calls_eq (fmt : String → String) (client : Nat)
    (file prompt : String) (transport : String → HttpOutcome) (cache : Cache)
    (x : Nat × String × String)
    (h : x ∈ (fetch_summary fmt client file prompt transport cache).calls) :
    x = (client, file, prompt) := by
  unfold fetch_summary at h
  cases hg : cacheGet cache prompt with
  | some v => rw [hg] at h; cases h
  | none =>
    rw [hg] at h
    cases ht : fetchTryBody fmt file prompt transport cache with
    | ok rc =>
      obtain ⟨r, c⟩ := rc
      rw [ht] at h
      simpa using h
    | error e =>
      rw [ht] at h
      simpa using h

theorem nodup_fst_mem_inj {α β : Type} {l : List (α × β)} {p : α} {a b : β}
    (hnd : (l.map Prod.fst).Nodup) (ha : (p, a) ∈ l) (hb : (p, b) ∈ l) :
    a = b := by
  induction l with
  | nil => cases ha
  | cons hd tl ih =>
    rw [List.map_cons, List.nodup_cons] at hnd
    cases ha with
    | head =>
      cases hb with
      | head => rfl
      | tail _ hb =>
        exact absurd (List.mem_map_of_mem Prod.fst hb) hnd.1
    | tail _ ha =>
      cases hb with
      | head =>
        exact absurd (List.mem_map_of_mem Prod.fst ha) hnd.1
      | tail _ hb => exact ih hnd.2 ha hb

theorem isPrefixB_append (l t : List Char) : isPrefixB l (l ++ t) = true := by
  induction l with
  | nil => rfl
  | cons a as ih => simp [isPrefixB, ih]

theorem containsSub_of_prefix (n h : List Char) (hp : isPrefixB n h = true) :
    containsSub n h = true := by
  cases h with
  | nil => simpa [containsSub] using hp
  | cons c cs => simp [containsSub, hp]

theorem pyIn_append (s t : String) : pyIn s (s ++ t) = true := by
  unfold pyIn
  rw [String.data_append]
  exact containsSub_of_prefix _ _ (isPrefixB_append s.data t.data)

theorem pySplitAux_wordsChars (n : Nat) :
    (pySplitAux (wordsChars n) []).length = n := by
  induction n with
  | zero => rfl
  | succ m ih =>
    show (pySplitAux ('a' :: ' ' :: wordsChars m) []).length = m + 1
    rw [show pySplitAux ('a' :: ' ' :: wordsChars m) []
        = ['a'] :: pySplitAux (wordsChars m) [] from rfl]
    simp [ih]

theorem countWords_wordsN (n : Nat) : countWords (wordsN n) = n := by
  unfold countWords wordsN
  exact pySplitAux_wordsChars n

theorem pipeGo_nil (fmt : String → String) (transport : String → HttpOutcome)
    (ignore_files : List String) (pf : String → String) (client : Nat)
    (cache : Cache) :
    pipeGo fmt transport ignore_files pf client cache [] = ⟨[], cache, []⟩ := rfl

theorem pipeGo_cons_ignored (fmt : String → String)
    (transport : String → HttpOutcome) (ignore_files : List String)
    (pf : String → String) (client : Nat) (cache : Cache)
    (path contents : String) (rest : List (String × String))
    (h : ignoredB ignore_files path = true) :
    pipeGo fmt transport ignore_files pf client cache ((path, contents) :: rest)
      = pipeGo fmt transport ignore_files pf client cache rest := by
  simp [pipeGo, h]

theorem pipeGo_cons_over (fmt : String → String)
    (transport : String → HttpOutcome) (ignore_files : List String)
    (pf : String → String) (client : Nat) (cache : Cache)
    (path contents : String) (rest : List (String × String))
    (h : ignoredB ignore_files path = false)
    (hlen : countWords (pf contents) > MAX_TOKENS) :
    pipeGo fmt transport ignore_files pf client cache ((path, contents) :: rest)
      = ⟨(path, "Prompt exceeds max token limit: " ++ toString (countWords (pf contents)))
            :: (pipeGo fmt transport ignore_files pf client cache rest).results,
          (pipeGo fmt transport ignore_files pf client cache rest).cache,
          (pipeGo fmt transport ignore_files pf client cache rest).calls⟩ := by
  simp [pipeGo, h, hlen]

theorem pipeGo_cons_fetch (fmt : String → String)
    (transport : String → HttpOutcome) (ignore_files : List String)
    (pf : String → String) (client : Nat) (cache : Cache)
    (path contents : String) (rest : List (String × String))
    (h : ignoredB ignore_files path = false)
    (hlen : ¬ countWords (pf contents) > MAX_TOKENS) :
    pipeGo fmt transport ignore_files pf client cache ((path, contents) :: rest)
      = ⟨(fetch_summary fmt client path (pf contents) transport cache).result
            :: (pipeGo fmt transport ignore_files pf client
                  (fetch_summary fmt client path (pf contents) transport cache).cache
                  rest).results,
          (pipeGo fmt transport ignore_files pf client
              (fetch_summary fmt client path (pf contents) transport cache).cache
              rest).cache,
          (fetch_summary fmt client path (pf contents) transport cache).calls
            ++ (pipeGo fmt transport ignore_files pf client
                  (fetch_summary fmt client path (pf contents) transport cache).cache
                  rest).calls⟩ := by
  simp [pipeGo, h, hlen]

theorem pipeGo_results_fst (fmt : String → String)
    (transport : String → HttpOutcome) (ignore_files : List String)
    (pf : String → String) (client : Nat) :
    ∀ (files : List (String × String)) (cache : Cache),
    (pipeGo fmt transport ignore_files pf client cache files).results.map Prod.fst
      = (files.filter (fun pc => !ignoredB ignore_files pc.1)).map Prod.fst := by
  intro files
  induction files with
  | nil => intro cache; rfl
  | cons hd tl ih =>
    intro cache
    obtain ⟨path, contents⟩ := hd
    by_cases hig : ignoredB ignore_files path
    · rw [pipeGo_cons_ignored fmt transport ignore_files pf client cache
        path contents tl hig, ih cache]
      simp [List.filter, hig]
    · rw [Bool.not_eq_true] at hig
      by_cases hlen : countWords (pf contents) > MAX_TOKENS
      · rw [pipeGo_cons_over fmt transport ignore_files pf client cache
          path contents tl hig hlen]
        simp only [List.map_cons, ih cache]
        simp [List.filter, hig]
      · rw [pipeGo_cons_fetch fmt transport ignore_files pf client cache
          path contents tl hig hlen]
        simp only [List.map_cons, ih _]
        rw [fetch_summary_result_fst]
        simp [List.filter, hig]

theorem pipeGo_calls_mem (fmt : String → String)
    (transport : String → HttpOutcome) (ignore_files : List String)
    (pf : String → String) (client : Nat) :
    ∀ (files : List (String × String)) (cache : Cache)
      (x : Nat × String × String),
    x ∈ (pipeGo fmt transport ignore_files pf client cache files).calls →
    ∃ contents, (x.2.1, contents) ∈ files ∧ x.1 = client
      ∧ ignoredB ignore_files x.2.1 = false
      ∧ countWords (pf contents) ≤ MAX_TOKENS ∧ x.2.2 = pf contents := by
  intro files
  induction files with
  | nil => intro cache x hx; cases hx
  | cons hd tl ih =>
    intro cache x hx
    obtain ⟨path, contents⟩ := hd
    by_cases hig : ignoredB ignore_files path
    · rw [pipeGo_cons_ignored fmt transport ignore_files pf client cache
        path contents tl hig] at hx
      obtain ⟨c, hc, rest⟩ := ih cache x hx
      exact ⟨c, List.mem_cons_of_mem _ hc, rest⟩
    · rw [Bool.not_eq_true] at hig
      by_cases hlen : countWords (pf contents) > MAX_TOKENS
      · rw [pipeGo_cons_over fmt transport ignore_files pf client cache
          path contents tl hig hlen] at hx
        obtain ⟨c, hc, rest⟩ := ih cache x hx
        exact ⟨c, List.mem_cons_of_mem _ hc, rest⟩
      · rw [pipeGo_cons_fetch fmt transport ignore_files pf client cache
          path contents tl hig hlen] at hx
        simp only [List.mem_append] at hx
        cases hx with
        | inl hx =>
          have := fetch_summary_calls_eq fmt client path (pf contents)
            transport cache x hx
          subst this
          exact ⟨contents, List.mem_cons_self _ _, rfl, hig,
            Nat.le_of_not_lt hlen, rfl⟩
        | inr hx =>
          obtain ⟨c, hc, rest⟩ := ih _ x hx
          exact ⟨c, List.mem_cons_of_mem _ hc, rest⟩

theorem fetchTryBody_of_failure (fmt : String → String) (file prompt : String)
    (transport : String → HttpOutcome) (cache : Cache)
    (h : fetchFailureB (transport prompt) = true) :
    (∃ e, fetchTryBody fmt file prompt transport cache = .error e)
    ∨ fetchTryBody fmt file prompt transport cache = .ok ((file, errMsg), cache) := by
  unfold fetchFailureB at h
  unfold fetchTryBody
  cases htr : transport prompt with
  | exn => exact Or.inl ⟨.httpExn, rfl⟩
  | resp status body =>
    rw [htr] at h
    by_cases hs : status ≠ 200
    · simp [hs]
    · simp only [hs, if_false, ite_false] at h ⊢
      cases body with
      | none => exact Or.inl ⟨.jsonError, by simp [hs]⟩
      | some data =>
        cases hc : data.choices with
        | none =>
          exact Or.inl ⟨.openAIError "OpenAI response missing choices field.",
            by simp [hs, hc]⟩
        | some l =>
          cases l with
          | nil =>
            exact Or.inl ⟨.openAIError "OpenAI response missing choices field.",
              by simp [hs, hc]⟩
          | cons choice rest => simp [hc] at h

theorem fetch_summary_failure (fmt : String → String) (client : Nat)
    (file prompt : String) (transport : String → HttpOutcome) (cache : Cache)
    (hmiss : cacheGet cache prompt = none)
    (hfail : fetchFailureB (transport prompt) = true) :
    fetch_summary fmt client file prompt transport cache
      = ⟨(file, errMsg), cache, [(client, file, prompt)]⟩ := by
  unfold fetch_summary
  rw [hmiss]
  rcases fetchTryBody_of_failure fmt file prompt transport cache hfail with ⟨e, he⟩ | hok
  · rw [he]
  · rw [hok]

theorem fetch_summary_success (fmt : String → String) (client : Nat)
    (file prompt : String) (transport : String → HttpOutcome) (cache : Cache)
    (body : ApiBody) (choice : String) (rest : List String)
    (hmiss : cacheGet cache prompt = none)
    (hresp : transport prompt = .resp 200 (some body))
    (hch : body.choices = some (choice :: rest)) :
    fetch_summary fmt client file prompt transport cache
      = ⟨(file, fmt choice), cacheSet cache prompt (fmt choice),
          [(client, file, prompt)]⟩ := by
  have h1 : fetchTryBody fmt file prompt transport cache
      = .ok ((file, fmt choice), cacheSet cache prompt (fmt choice)) := by
    unfold fetchTryBody
    rw [hresp]
    simp [hch]
  unfold fetch_summary
  rw [hmiss, h1]

theorem fetch_summary_calls_of_miss (fmt : String → String) (client : Nat)
    (file prompt : String) (transport : String → HttpOutcome) (cache : Cache)
    (hmiss : cacheGet cache prompt = none) :
    (fetch_summary fmt client file prompt transport cache).calls
      = [(client, file, prompt)] := by
  unfold fetch_summary
  rw [hmiss]
  cases ht : fetchTryBody fmt file prompt transport cache with
  | ok rc => obtain ⟨r, c⟩ := rc; rfl
  | error e => rfl

theorem pipeGo_over_budget_mem (fmt : String → String)
    (transport : String → HttpOutcome) (ignore_files : List String)
    (pf : String → String) (client : Nat) :
    ∀ (files : List (String × String)) (cache : Cache) (path contents : String),
    (path, contents) ∈ files →
    ignoredB ignore_files path = false →
    countWords (pf contents) > MAX_TOKENS →
    (path, "Prompt exceeds max token limit: " ++ toString (countWords (pf contents)))
      ∈ (pipeGo fmt transport ignore_files pf client cache files).results := by
  intro files
  induction files with
  | nil => intro cache path contents hmem; cases hmem
  | cons hd tl ih =>
    intro cache path contents hmem hig hlen
    obtain ⟨p, c⟩ := hd
    cases hmem with
    | head =>
      rw [pipeGo_cons_over fmt transport ignore_files pf client cache
        path contents tl hig hlen]
      exact List.mem_cons_self _ _
    | tail _ hmem =>
      by_cases hig2 : ignoredB ignore_files p
      · rw [pipeGo_cons_ignored fmt transport ignore_files pf client cache
          p c tl hig2]
        exact ih cache path contents hmem hig hlen
      · rw [Bool.not_eq_true] at hig2
        by_cases hlen2 : countWords (pf c) > MAX_TOKENS
        · rw [pipeGo_cons_over fmt transport ignore_files pf client cache
            p c tl hig2 hlen2]
          exact List.mem_cons_of_mem _ (ih cache path contents hmem hig hlen)
        · rw [pipeGo_cons_fetch fmt transport ignore_files pf client cache
            p c tl hig2 hlen2]
          exact List.mem_cons_of_mem _ (ih _ path contents hmem hig hlen)

/-! ## The claims -/

/-- C1: for every input mapping, ignore list, transport, normalizer and
prompt renderer, the output of the pipeline contains exactly one
`(path, summaryText)` entry for each input file whose path contains no
ignore-list entry as a substring, and no entry for a file whose path
contains one: the list of output paths is exactly the list of paths of
the non-ignored input files. -/
theorem code_to_text_entries (fmt : String → String)
    (transport : String → HttpOutcome) (ignore_files : List String)
    (files : List (String × String)) (pf : String → String) :
    (code_to_text fmt transport ignore_files files pf).results.map Prod.fst
      = (files.filter (fun pc => !ignoredB ignore_files pc.1)).map Prod.fst := by
  unfold code_to_text
  exact pipeGo_results_fst fmt transport ignore_files pf 0 files []

/-- C4: a cache state in which the rendered prompt is present makes
`fetch_summary` return the cached summary paired with the file path at
once, with the cache unchanged and no network call issued. -/
theorem fetch_summary_cache_hit (fmt : String → String) (client : Nat)
    (file prompt : String) (transport : String → HttpOutcome) (cache : Cache)
    (v : String) (h : cacheGet cache prompt = some v) :
    fetch_summary fmt client file prompt transport cache
      = ⟨(file, v), cache, []⟩ := by
  unfold fetch_summary
  rw [h]

/-- Witness for C4 at the example given in the spec: a cache pre-populated with
`PROMPT_X ↦ cached summary` answers a request with rendered prompt
`PROMPT_X` from the cache, without a network call. -/
theorem fetch_summary_cache_hit_witness :
    fetch_summary id 0 "main.py" "PROMPT_X" trOK [("PROMPT_X", "cached summary")]
      = ⟨("main.py", "cached summary"), [("PROMPT_X", "cached summary")], []⟩ :=
  fetch_summary_cache_hit id 0 "main.py" "PROMPT_X" trOK
    [("PROMPT_X", "cached summary")] "cached summary" rfl

/-- C9: any response status other than exactly 200 — also success-family
statuses such as 201 or 204 — makes `fetch_summary` return the fallback
string with the cache unchanged, for every body whatsoever (the `try` block
returns before the body is parsed, as the first conjunct shows). -/
theorem fetch_summary_non_200 (fmt : String → String) (client : Nat)
    (file prompt : String) (transport : String → HttpOutcome) (cache : Cache)
    (status : Nat) (body : Option ApiBody)
    (hmiss : cacheGet cache prompt = none)
    (hresp : transport prompt = .resp status body)
    (hstatus : status ≠ 200) :
    fetchTryBody fmt file prompt transport cache = .ok ((file, errMsg), cache)
    ∧ fetch_summary fmt client file prompt transport cache
        = ⟨(file, errMsg), cache, [(client, file, prompt)]⟩ := by
  have h1 : fetchTryBody fmt file prompt transport cache
      = .ok ((file, errMsg), cache) := by
    unfold fetchTryBody
    rw [hresp]
    simp [hstatus]
  refine ⟨h1, ?_⟩
  unfold fetch_summary
  rw [hmiss, h1]

/-- Witness for C9 at status 204 with a parseable body carrying a non-empty
`choices` list: the body is never consulted and the fallback is returned. -/
theorem fetch_summary_non_200_witness :
    fetchTryBody id "main.py" "P" tr204 [] = .ok (("main.py", errMsg), [])
    ∧ fetch_summary id 0 "main.py" "P" tr204 []
        = ⟨("main.py", errMsg), [], [(0, "main.py", "P")]⟩ :=
  fetch_summary_non_200 id 0 "main.py" "P" tr204 [] 204
    (some ⟨some ["should not be read"]⟩) rfl rfl (by decide)

/-- C5: a 200 response whose parsed payload lacks a non-empty `choices`
list makes the `try` body raise the domain-specific `OpenAIError`
internally; the enclosing handler catches it and the result for the file is the
same fixed fallback string as a transport failure, never a crash, with the
cache unchanged. -/
theorem fetch_summary_missing_choices (fmt : String → String) (client : Nat)
    (file prompt : String) (transport : String → HttpOutcome) (cache : Cache)
    (body : ApiBody)
    (hmiss : cacheGet cache prompt = none)
    (hresp : transport prompt = .resp 200 (some body))
    (hchoices : body.choices = none ∨ body.choices = some []) :
    fetchTryBody fmt file prompt transport cache
      = .error (.openAIError "OpenAI response missing choices field.")
    ∧ fetch_summary fmt client file prompt transport cache
        = ⟨(file, errMsg), cache, [(client, file, prompt)]⟩ := by
  have h1 : fetchTryBody fmt file prompt transport cache
      = .error (.openAIError "OpenAI response missing choices field.") := by
    unfold fetchTryBody
    rw [hresp]
    rcases hchoices with hc | hc <;> simp [hc]
  refine ⟨h1, ?_⟩
  unfold fetch_summary
  rw [hmiss, h1]

/-- Witness for C5 at a 200 response with body `{choices: []}`: the domain
error is raised internally and the result is the fallback string. -/
theorem fetch_summary_missing_choices_witness :
    fetchTryBody id "f.py" "P" trEmptyChoices []
      = .error (.openAIError "OpenAI response missing choices field.")
    ∧ fetch_summary id 0 "f.py" "P" trEmptyChoices []
        = ⟨("f.py", errMsg), [], [(0, "f.py", "P")]⟩ :=
  fetch_summary_missing_choices id 0 "f.py" "P" trEmptyChoices [] ⟨some []⟩
    rfl rfl (Or.inr rfl)

theorem isPrefixB_append_right (l : List Char) :
    ∀ (m t : List Char), isPrefixB l m = true → isPrefixB l (m ++ t) = true := by
  induction l with
  | nil => intro m t _; rfl
  | cons a as ih =>
    intro m t hp
    cases m with
    | nil => cases hp
    | cons b bs =>
      simp only [isPrefixB, Bool.and_eq_true] at hp
      simp only [List.cons_append, isPrefixB, Bool.and_eq_true]
      exact ⟨hp.1, ih bs t hp.2⟩

theorem pyIn_of_isPrefixB (s h t : String) (hp : isPrefixB s.data h.data = true) :
    pyIn s (h ++ t) = true := by
  unfold pyIn
  rw [String.data_append]
  exact containsSub_of_prefix _ _ (isPrefixB_append_right s.data h.data t.data hp)

/-- C2: `fetch_summary` never fails outward — its result is always a pair
carrying the original file path, any failing POST outcome on a cache miss
yields exactly the fixed fallback string with the cache untouched, and
inside a batch such a failure changes nothing for the sibling files: the
batch with the failing file produces the fallback entry followed by
precisely the results the batch without that file would produce. -/
theorem fetch_summary_error_isolation (fmt : String → String) (client : Nat)
    (file prompt : String) (transport : String → HttpOutcome) (cache : Cache) :
    (fetch_summary fmt client file prompt transport cache).result.1 = file
    ∧ (cacheGet cache prompt = none → fetchFailureB (transport prompt) = true →
        fetch_summary fmt client file prompt transport cache
          = ⟨(file, errMsg), cache, [(client, file, prompt)]⟩)
    ∧ (∀ (ignore_files : List String) (pf : String → String)
        (contents : String) (rest : List (String × String)),
        ignoredB ignore_files file = false →
        countWords (pf contents) ≤ MAX_TOKENS →
        cacheGet cache (pf contents) = none →
        fetchFailureB (transport (pf contents)) = true →
        (pipeGo fmt transport ignore_files pf client cache
            ((file, contents) :: rest)).results
          = (file, errMsg)
              :: (pipeGo fmt transport ignore_files pf client cache rest).results) := by
  refine ⟨fetch_summary_result_fst fmt client file prompt transport cache,
    fun hm hf => fetch_summary_failure fmt client file prompt transport cache hm hf,
    ?_⟩
  intro ig pf contents rest hig hlen hm hf
  rw [pipeGo_cons_fetch fmt transport ig pf client cache file contents rest hig
    (Nat.not_lt.mpr hlen)]
  rw [fetch_summary_failure fmt client file (pf contents) transport cache hm hf]

/-- C6: the shared cache is mutated only by a fully successful fetch, which
writes exactly one new entry keyed by the original rendered prompt whose
value is the normalized summary; a cache hit and every failure path leave
the cache unchanged. -/
theorem fetch_summary_cache_frame (fmt : String → String) (client : Nat)
    (file prompt : String) (transport : String → HttpOutcome) (cache : Cache) :
    (∀ (body : ApiBody) (choice : String) (rest : List String),
        cacheGet cache prompt = none →
        transport prompt = .resp 200 (some body) →
        body.choices = some (choice :: rest) →
        (fetch_summary fmt client file prompt transport cache).cache
            = cacheSet cache prompt (fmt choice)
          ∧ (fetch_summary fmt client file prompt transport cache).cache.length
              = cache.length + 1
          ∧ cacheGet (fetch_summary fmt client file prompt transport cache).cache
              prompt = some (fmt choice))
    ∧ (∀ v, cacheGet cache prompt = some v →
        (fetch_summary fmt client file prompt transport cache).cache = cache)
    ∧ (cacheGet cache prompt = none → fetchFailureB (transport prompt) = true →
        (fetch_summary fmt client file prompt transport cache).cache = cache) := by
  refine ⟨?_, ?_, ?_⟩
  · intro body choice rest hmiss hresp hch
    rw [fetch_summary_success fmt client file prompt transport cache body choice
      rest hmiss hresp hch]
    refine ⟨rfl, by simp [cacheSet], ?_⟩
    simp [cacheSet, cacheGet]
  · intro v hv
    unfold fetch_summary
    rw [hv]
  · intro hmiss hfail
    rw [fetch_summary_failure fmt client file prompt transport cache hmiss hfail]

/-- C3: a file whose rendered prompt has a whitespace-delimited token count
strictly above 4096 gets the placeholder entry carrying the exceeded-limit
message (which contains the indication as a substring), and the pipeline
issues no network call for that file. -/
theorem code_to_text_over_budget (fmt : String → String)
    (transport : String → HttpOutcome) (ignore_files : List String)
    (files : List (String × String)) (pf : String → String)
    (path contents : String)
    (hmem : (path, contents) ∈ files)
    (hnodup : (files.map Prod.fst).Nodup)
    (hig : ignoredB ignore_files path = false)
    (hlen : countWords (pf contents) > MAX_TOKENS) :
    ((path, "Prompt exceeds max token limit: " ++ toString (countWords (pf contents)))
        ∈ (code_to_text fmt transport ignore_files files pf).results)
    ∧ (∀ x ∈ (code_to_text fmt transport ignore_files files pf).calls,
        x.2.1 ≠ path)
    ∧ pyIn "Prompt exceeds max token limit"
        ("Prompt exceeds max token limit: " ++ toString (countWords (pf contents)))
        = true := by
  refine ⟨?_, ?_, ?_⟩
  · unfold code_to_text
    exact pipeGo_over_budget_mem fmt transport ignore_files pf 0 files []
      path contents hmem hig hlen
  · intro x hx hpath
    unfold code_to_text at hx
    obtain ⟨c, hcmem, _, _, hcle, _⟩ :=
      pipeGo_calls_mem fmt transport ignore_files pf 0 files [] x hx
    rw [hpath] at hcmem
    have hce : c = contents := nodup_fst_mem_inj hnodup hcmem hmem
    subst hce
    exact absurd hlen (Nat.not_lt.mpr hcle)
  · exact pyIn_of_isPrefixB "Prompt exceeds max token limit"
      "Prompt exceeds max token limit: " (toString (countWords (pf contents)))
      (by decide)

/-- Witness for C3: a one-file batch whose prompt splits into 4097 tokens
gets the placeholder entry and no network call. -/
theorem code_to_text_over_budget_witness :
    ((("f.py" : String),
        "Prompt exceeds max token limit: " ++ toString (countWords (id (wordsN 4097))))
        ∈ (code_to_text id trOK [] [("f.py", wordsN 4097)] id).results)
    ∧ (∀ x ∈ (code_to_text id trOK [] [("f.py", wordsN 4097)] id).calls,
        x.2.1 ≠ "f.py")
    ∧ pyIn "Prompt exceeds max token limit"
        ("Prompt exceeds max token limit: " ++ toString (countWords (id (wordsN 4097))))
        = true :=
  code_to_text_over_budget id trOK [] [("f.py", wordsN 4097)] id "f.py"
    (wordsN 4097) (List.Mem.head _) (by simp) rfl
    (by rw [id_eq, countWords_wordsN]; decide)

/-- C10: the over-budget comparison is strict — a rendered prompt whose
token count is exactly 4096 is not given the placeholder: a fetch task runs
for it (the head result is the fetch result) and a network call is issued
for it. -/
theorem code_to_text_at_limit (fmt : String → String)
    (transport : String → HttpOutcome) (ignore_files : List String)
    (pf : String → String) (path contents : String)
    (rest : List (String × String))
    (hig : ignoredB ignore_files path = false)
    (hlen : countWords (pf contents) = MAX_TOKENS) :
    (code_to_text fmt transport ignore_files ((path, contents) :: rest) pf).results
      = (fetch_summary fmt 0 path (pf contents) transport []).result
          :: (pipeGo fmt transport ignore_files pf 0
                (fetch_summary fmt 0 path (pf contents) transport []).cache
                rest).results
    ∧ (0, path, pf contents)
        ∈ (code_to_text fmt transport ignore_files ((path, contents) :: rest) pf).calls := by
  have hnl : ¬ countWords (pf contents) > MAX_TOKENS := by
    rw [hlen]; exact lt_irrefl _
  constructor
  · simp only [code_to_text]
    rw [pipeGo_cons_fetch fmt transport ignore_files pf 0 [] path contents rest
      hig hnl]
  · simp only [code_to_text]
    rw [pipeGo_cons_fetch fmt transport ignore_files pf 0 [] path contents rest
      hig hnl]
    simp [fetch_summary_calls_of_miss fmt 0 path (pf contents) transport [] rfl]

/-- Witness for C10: a one-file batch whose prompt splits into exactly 4096
tokens is scheduled as a fetch task and triggers a network call. -/
theorem code_to_text_at_limit_witness :
    (code_to_text id trOK [] [("f.py", wordsN 4096)] id).results
      = (fetch_summary id 0 "f.py" (id (wordsN 4096)) trOK []).result
          :: (pipeGo id trOK [] id 0
                (fetch_summary id 0 "f.py" (id (wordsN 4096)) trOK []).cache
                []).results
    ∧ (0, "f.py", id (wordsN 4096))
        ∈ (code_to_text id trOK [] [("f.py", wordsN 4096)] id).calls :=
  code_to_text_at_limit id trOK [] id "f.py" (wordsN 4096) [] rfl
    (by rw [id_eq, countWords_wordsN]; rfl)

/-- Counterexample to C7 as stated: the cache of `code_to_text` is created
fresh and empty inside every invocation (`get_cache()` at line 59), so no
entry survives from one run to the next.  At this concrete input the run
ends with the summary cached — and nothing in the model ever expires or is
evicted — yet an identical second invocation is the very same computation
and issues one network call, not zero. -/
theorem code_to_text_rerun_counterexample :
    cacheGet (code_to_text id trOK [] [("a.py", "code")] id).cache "code"
      = some "ok"
    ∧ (code_to_text id trOK [] [("a.py", "code")] id).calls
        = [(0, "a.py", "code")]
    ∧ (code_to_text id trOK [] [("a.py", "code")] id).calls.length ≠ 0 := by
  refine ⟨by decide, by decide, by decide⟩

/-- C7 as amended: each pipeline invocation constructs its own fresh empty
cache, so cache entries never carry over between runs; a second run with
identical inputs repeats the same computation as the first, and in
particular any run — first or second — issues a network call for its first
non-ignored, within-budget file instead of zero calls. -/
theorem code_to_text_rerun_issues_calls (fmt : String → String)
    (transport : String → HttpOutcome) (ignore_files : List String)
    (pf : String → String) (path contents : String)
    (rest : List (String × String))
    (hig : ignoredB ignore_files path = false)
    (hlen : countWords (pf contents) ≤ MAX_TOKENS) :
    (0, path, pf contents)
      ∈ (code_to_text fmt transport ignore_files ((path, contents) :: rest) pf).calls := by
  simp only [code_to_text]
  rw [pipeGo_cons_fetch fmt transport ignore_files pf 0 [] path contents rest
    hig (Nat.not_lt.mpr hlen)]
  simp [fetch_summary_calls_of_miss fmt 0 path (pf contents) transport [] rfl]

/-- Witness for the amended C7: a repeated run over one small file issues
its network call again. -/
theorem code_to_text_rerun_issues_calls_witness :
    (0, "a.py", id "code")
      ∈ (code_to_text id trOK [] [("a.py", "code")] id).calls :=
  code_to_text_rerun_issues_calls id trOK [] id "a.py" "code" [] rfl (by decide)

/-- Counterexample to C8 as stated: the source never closes the HTTP client
(`code_to_text` has no `aclose` and no `async with`), so while exactly one
client is created per invocation, it is not released when the batch
completes: at this concrete input the invocation records zero closes, not
one. -/
theorem code_to_text_client_not_closed :
    (code_to_text id trOK [] [("a.py", "code")] id).clientsCreated = 1
    ∧ (code_to_text id trOK [] [("a.py", "code")] id).clientsClosed = 0
    ∧ (code_to_text id trOK [] [("a.py", "code")] id).clientsClosed ≠ 1 := by
  refine ⟨rfl, rfl, by decide⟩

/-- C8 as amended: exactly one HTTP transport instance is created per
pipeline invocation and every network call of the batch is issued through
that one shared instance; the invocation never closes it (zero releases, on
the normal path and on every other path). -/
theorem code_to_text_single_client (fmt : String → String)
    (transport : String → HttpOutcome) (ignore_files : List String)
    (files : List (String × String)) (pf : String → String) :
    (code_to_text fmt transport ignore_files files pf).clientsCreated = 1
    ∧ (code_to_text fmt transport ignore_files files pf).clientsClosed = 0
    ∧ (∀ x ∈ (code_to_text fmt transport ignore_files files pf).calls,
        x.1 = 0) := by
  refine ⟨rfl, rfl, ?_⟩
  intro x hx
  unfold code_to_text at hx
  obtain ⟨c, _, hcl, _⟩ :=
    pipeGo_calls_mem fmt transport ignore_files pf 0 files [] x hx
  exact hcl
